import Mathlib

/-!
Shallow embedding of `src/main.py`, a FastAPI service that returns the
mathematical properties of an integer.

Modelling conventions:
* Python's arbitrary-precision `int` is `Int`; `str` is `String`, or
  `List Char` where slicing matters (`bin(num)[2:]`).
* Python exceptions are `Except PyError`; an exception escaping the endpoint
  body is what the surrounding `except Exception` clause turns into HTTP 500.
* The float square root bounding the factor scan and the float cube root
  `round(num ** (1/3))` are modelled by exact integer arithmetic (`Nat.sqrt`
  and a nearest integer cube root); the float versions agree with those for
  magnitudes far below 2^52, and the `OverflowError` Python would raise when
  converting an `int` beyond float range (about 2^1024) is outside the model.
* The remote HTTP call of `get_fun_fact` and the `random.choice` of
  `get_local_fun_fact` are injected as parameters (`remote`, `pick`).
-/

/-- The kinds of Python exception the embedded code can raise. -/
inductive PyError where
  | valueError : PyError
  | typeError : PyError
deriving DecidableEq, Repr

/-- A value of the `properties` dict: `Union[bool, int, str, List[int]]`. -/
inductive PyVal where
  | b : Bool → PyVal
  | i : Int → PyVal
  | s : String → PyVal
  | l : List Int → PyVal
deriving DecidableEq, Repr

/-- The fixed emoji list `EMOJIS` (line 28 of `main.py`). -/
def EMOJIS : List String := ["😀", "🎉", "🚀", "🌟", "🔥", "💡", "🌈", "🍀", "🎶", "📚"]

/-- `sympy.is_square`, the `check_square` chosen by `is_fibonacci` (lines
44-59): `False` for negative input, otherwise an exact integer square test. -/
def sympy_is_square (x : Int) : Bool :=
  if x < 0 then false else Nat.sqrt x.toNat * Nat.sqrt x.toNat == x.toNat

/-- `is_fibonacci` (lines 44-59): `check_square(5*num**2 + 4) or
check_square(5*num**2 - 4)`. -/
def is_fibonacci (num : Int) : Bool :=
  sympy_is_square (5 * num ^ 2 + 4) || sympy_is_square (5 * num ^ 2 - 4)

/-- `sympy.isprime`: `False` for `num < 2`, otherwise primality of `num`. -/
def sympy_isprime (num : Int) : Bool :=
  if num < 2 then false else decide (Nat.Prime num.toNat)

/-- `math.isqrt`: raises `ValueError` on negative input, otherwise the exact
integer square root. -/
def py_isqrt (num : Int) : Except PyError Nat :=
  if num < 0 then .error .valueError else .ok (Nat.sqrt num.toNat)

/-- The perfect-square check `math.isqrt(num) ** 2 == num`
(lines 115 and 159). -/
def py_is_perfect_square (num : Int) : Except PyError Bool := do
  let s ← py_isqrt num
  pure ((s : Int) * s == num)

/-- Floor integer cube root, helper for modelling `num ** (1/3)`. -/
def natCbrt (n : Nat) : Nat :=
  ((List.range (n + 1)).filter (fun k => k * k * k ≤ n)).foldr max 0

/-- `round(num ** (1/3))`: for negative `num` Python evaluates the power to a
complex number and `round` raises `TypeError`; for `num ≥ 0` modelled as the
integer nearest to the real cube root (ties upward), which is what the float
computation rounds to for moderate magnitudes. -/
def py_round_cbrt (num : Int) : Except PyError Int :=
  if num < 0 then .error .typeError
  else
    let k := natCbrt num.toNat
    .ok (if 8 * num.toNat < (2 * k + 1) ^ 3 then (k : Int) else (k + 1 : Nat))

/-- The perfect-cube check `round(num ** (1/3)) ** 3 == num`
(lines 118 and 160). -/
def py_is_perfect_cube (num : Int) : Except PyError Bool := do
  let c ← py_round_cbrt num
  pure (c ^ 3 == num)

/-- `Nat.bitwise` of "and not", used for mixed-sign bitwise AND. -/
def natLdiff (m n : Nat) : Nat := Nat.bitwise (fun a b => a && !b) m n

/-- Python's `&` on arbitrary-precision integers: bitwise AND in infinite
two's complement. -/
def py_land : Int → Int → Int
  | .ofNat m, .ofNat n => .ofNat (m &&& n)
  | .ofNat m, .negSucc n => .ofNat (natLdiff m n)
  | .negSucc m, .ofNat n => .ofNat (natLdiff n m)
  | .negSucc m, .negSucc n => .negSucc (m ||| n)

/-- The power-of-two check `(num & (num - 1)) == 0 and num != 0`
(lines 121 and 161). -/
def py_is_power_of_two (num : Int) : Bool :=
  (py_land num (num - 1) == 0) && (num != 0)

/-- The decimal digits of `n : Nat` as rendered by `str(n)`. -/
def pyStrDigits (n : Nat) : List Nat :=
  (Nat.toDigits 10 n).map (fun c => c.toNat - '0'.toNat)

/-- `sum(int(d) ** len(str(abs(num))) for d in str(abs(num)))`. -/
def armstrongSum (num : Int) : Nat :=
  ((pyStrDigits num.natAbs).map (fun d => d ^ (pyStrDigits num.natAbs).length)).sum

/-- The Armstrong check
`num == sum(int(d) ** len(str(abs(num))) for d in str(abs(num)))`
(lines 124 and 162): note it compares `num` itself, not `abs(num)`. -/
def py_is_armstrong (num : Int) : Bool :=
  num == (armstrongSum num : Int)

/-- `sum(int(d) for d in str(abs(num)))` (line 167). -/
def py_digit_sum (num : Int) : Nat := (pyStrDigits num.natAbs).sum

/-- The perfect-number check
`num > 0 and sum(i for i in range(1, num) if num % i == 0) == num`
(lines 127 and 163). -/
def py_is_perfect_number (num : Int) : Bool :=
  decide (0 < num) &&
    (((List.range' 1 (num.toNat - 1)).filter (fun i => num.toNat % i == 0)).sum == num.toNat)

/-- `int(math.sqrt(n))` for `n : Nat`: the floor of the square root, written
as an executable scan (the float `math.sqrt` agrees with the exact floor for
magnitudes far below 2^52, which is how it is modelled). -/
def pySqrtFloor (n : Nat) : Nat :=
  ((List.range (n + 1)).filter (fun k => k * k ≤ n)).foldr max 0

/-- The collection loop of `get_factors` (lines 63-66): scan `i` from 1 to
`int(math.sqrt(abs(num)))` and collect `i` and `num // i` (floor division of
the signed `num`!) whenever `num % i == 0`. -/
def factor_pairs (num : Int) : List Int :=
  (List.range' 1 (pySqrtFloor num.natAbs)).flatMap
    (fun i => if num % (i : Int) == 0 then [(i : Int), num.fdiv (i : Int)] else [])

/-- `get_factors` (lines 61-67): the collected values as a sorted set; the
Python `sorted(set(...))` is modelled by `dedup` followed by a sort. -/
def get_factors (num : Int) : List Int :=
  List.insertionSort (· ≤ ·) (factor_pairs num).dedup

/-- The characters of Python's `bin(num)`: a minus sign for negatives, then
`0b`, then the binary digits of `|num|`. -/
def py_bin_chars (num : Int) : List Char :=
  (if num < 0 then ['-'] else []) ++ '0' :: 'b' :: Nat.toDigits 2 num.natAbs

/-- `bin(num)[2:]` (lines 76 and 168). -/
def py_bin_field (num : Int) : List Char := (py_bin_chars num).drop 2

/-- The characters of Python's `hex(num)` (lowercase digits). -/
def py_hex_chars (num : Int) : List Char :=
  (if num < 0 then ['-'] else []) ++ '0' :: 'x' :: Nat.toDigits 16 num.natAbs

/-- `hex(num)[2:]` (lines 77 and 169). -/
def py_hex_field (num : Int) : List Char := (py_hex_chars num).drop 2

/-- `math.factorial(num) if num < 20 else "Too large to calculate"`
(line 170): `math.factorial` raises `ValueError` on negative input. -/
def py_factorial_field (num : Int) : Except PyError PyVal :=
  if num < 20 then
    if num < 0 then .error .valueError else .ok (.i (num.toNat.factorial : Int))
  else .ok (.s "Too large to calculate")

/-- `"positive" if num > 0 else "negative" if num < 0 else "zero"`
(line 165). -/
def py_sign (num : Int) : String :=
  if 0 < num then "positive" else if num < 0 then "negative" else "zero"

/-- The `properties` dict of `get_number_properties` (lines 155-171) as an
ordered key/value list. Python evaluates the entries in source order; the
three fallible entries are hoisted here in that same relative order (every
other entry is total), so the first raised exception is unchanged: for
`num < 0` it is `math.isqrt` inside `is_perfect_square`. -/
def build_properties (num : Int) : Except PyError (List (String × PyVal)) := do
  let psq ← py_is_perfect_square num
  let pcb ← py_is_perfect_cube num
  let fct ← py_factorial_field num
  pure [("is_even", .b (num % 2 == 0)),
        ("is_prime", .b (sympy_isprime num)),
        ("is_fibonacci", .b (is_fibonacci num)),
        ("is_perfect_square", .b psq),
        ("is_perfect_cube", .b pcb),
        ("is_power_of_two", .b (py_is_power_of_two num)),
        ("is_armstrong", .b (py_is_armstrong num)),
        ("is_perfect_number", .b (py_is_perfect_number num)),
        ("absolute_value", .i (num.natAbs : Int)),
        ("sign", .s (py_sign num)),
        ("factors", .l (get_factors num)),
        ("digit_sum", .i (py_digit_sum num : Int)),
        ("binary", .s (String.mk (py_bin_field num))),
        ("hexadecimal", .s (String.mk (py_hex_field num))),
        ("factorial", fct)]

/-- The fixed tag vocabulary of `classify_number`, in evaluation order. -/
def CLASSIFICATION_TAGS : List String :=
  ["even", "odd", "prime", "composite", "fibonacci", "perfect-square",
   "perfect-cube", "power-of-two", "armstrong", "perfect-number"]

/-- The tag list `classify_number` builds once its two fallible checks have
been evaluated: the eight groups appended in source order. -/
def classifyList (e p f sq cb pw ar pf : Bool) : List String :=
  (if e then ["even"] else ["odd"]) ++
  (if p then ["prime"] else ["composite"]) ++
  (if f then ["fibonacci"] else []) ++
  (if sq then ["perfect-square"] else []) ++
  (if cb then ["perfect-cube"] else []) ++
  (if pw then ["power-of-two"] else []) ++
  (if ar then ["armstrong"] else []) ++
  (if pf then ["perfect-number"] else [])

/-- `classify_number` (lines 98-130): for `num < 0` it raises (first at
`math.isqrt(num)` on line 115). -/
def classify_number (num : Int) : Except PyError (List String) := do
  let psq ← py_is_perfect_square num
  let pcb ← py_is_perfect_cube num
  pure (classifyList (num % 2 == 0) (sympy_isprime num) (is_fibonacci num)
    psq pcb (py_is_power_of_two num) (py_is_armstrong num) (py_is_perfect_number num))

/-- The element names of the atomic-number fact (line 81). -/
def ELEMENTS : List String :=
  ["beryllium", "boron", "carbon", "nitrogen", "oxygen", "fluorine", "neon"]

/-- `get_local_fun_fact` (lines 69-83). All ten f-strings are evaluated
before `random.choice` picks one; the random choice is injected as `pick`
(taken mod 10). For `num < 0` the factorial fact raises `ValueError`
(line 78) before `math.isqrt` on line 79 could. -/
def get_local_fun_fact (pick : Nat) (num : Int) : Except PyError String := do
  let f1 := toString num ++ " is " ++ (if num % 2 == 0 then "even" else "odd") ++ "."
  let f2 := toString num ++ " is " ++
    (if sympy_isprime num then "prime" else "composite") ++ "."
  let f3 := toString num ++ " is " ++
    (if is_fibonacci num then "a Fibonacci number" else "not a Fibonacci number") ++ "."
  let f4 := toString num ++ " squared is " ++ toString (num ^ 2) ++ "."
  let f5 := toString num ++ " in binary is " ++ String.mk (py_bin_field num) ++ "."
  let f6 := toString num ++ " in hexadecimal is " ++ String.mk (py_hex_field num) ++ "."
  let fv ← if num < 20 then
      (if num < 0 then Except.error PyError.valueError
       else Except.ok (toString num.toNat.factorial))
    else Except.ok "too large to calculate"
  let f7 := "The factorial of " ++ toString num ++ " is " ++ fv ++ "."
  let psq ← py_is_perfect_square num
  let f8 := toString num ++ " is " ++
    (if psq then "a perfect square" else "not a perfect square") ++ "."
  let pcb ← py_is_perfect_cube num
  let f9 := toString num ++ " is " ++
    (if pcb then "a perfect cube" else "not a perfect cube") ++ "."
  let f10 := toString num ++ " is the atomic number of " ++
    (if 4 ≤ num ∧ num ≤ 10 then ELEMENTS.getD (num - 4).toNat "" else "an unknown element") ++ "."
  let facts := [f1, f2, f3, f4, f5, f6, f7, f8, f9, f10]
  pure (facts.getD (pick % facts.length) "")

/-- `get_fun_fact` (lines 85-96). The remote HTTP call is injected: `some t`
means the request returned 2xx with body `t` (then stripped); `none` covers
every `RequestException` (timeout, connection failure, `raise_for_status`),
all of which the `except RequestException` clause swallows before calling the
local generator. -/
def get_fun_fact (remote : Option String) (pick : Nat) (num : Int) :
    Except PyError String :=
  match remote with
  | some t => .ok t.trim
  | none => get_local_fun_fact pick num

/-- The response model of the service (lines 32-37). -/
structure NumberProperties where
  number : Int
  properties : List (String × PyVal)
  fun_fact : String
  emoji : String
  classification : List String
deriving DecidableEq, Repr

/-- The body of `GET /number/{num}` (lines 145-179) inside its `try`:
properties dict, fun fact, emoji `EMOJIS[abs(num) % len(EMOJIS)]`, and
classification, assembled in source order. -/
def get_number_properties (remote : Option String) (pick : Nat) (num : Int) :
    Except PyError NumberProperties := do
  let props ← build_properties num
  let fact ← get_fun_fact remote pick num
  let cls ← classify_number num
  pure { number := num, properties := props, fun_fact := fact,
         emoji := EMOJIS.getD (num.natAbs % EMOJIS.length) "",
         classification := cls }

/-- The HTTP status the route produces: 200 on success, 500 when the
`except Exception` branch raises `HTTPException(500, ErrorResponse ...)`. -/
def endpoint_status (remote : Option String) (pick : Nat) (num : Int) : Nat :=
  match get_number_properties remote pick num with
  | .ok _ => 200
  | .error _ => 500

/-- Modelled from the spec: the Armstrong property of the magnitude, "true iff
`|n|` equals the sum of each decimal digit raised to the power of the digit
count of `|n|`"; stated for comparison with the source's check. -/
def armstrong_spec (num : Int) : Bool :=
  (num.natAbs : Int) == (armstrongSum num : Int)

/-- From the spec: the unsigned-magnitude binary digits of `|n|`, no sign and
no prefix. -/
def binary_digits_spec (num : Int) : List Char := Nat.toDigits 2 num.natAbs

/-- From the spec: the unsigned-magnitude hexadecimal digits of `|n|`. -/
def hex_digits_spec (num : Int) : List Char := Nat.toDigits 16 num.natAbs

lemma foldr_max_le {l : List Nat} {b : Nat} (h : ∀ x ∈ l, x ≤ b) : l.foldr max 0 ≤ b := by
  induction l with
  | nil => exact Nat.zero_le b
  | cons a t ih =>
    simp only [List.foldr_cons]
    exact max_le (h a (List.mem_cons_self a t)) (ih fun x hx => h x (List.mem_cons_of_mem a hx))

lemma le_foldr_max {l : List Nat} {a : Nat} (h : a ∈ l) : a ≤ l.foldr max 0 := by
  induction l with
  | nil => cases h
  | cons c t ih =>
    simp only [List.foldr_cons]
    rcases List.mem_cons.mp h with rfl | h
    · exact le_max_left _ _
    · exact le_trans (ih h) (le_max_right _ _)

lemma pySqrtFloor_eq (n : Nat) : pySqrtFloor n = Nat.sqrt n := by
  apply Nat.le_antisymm
  · apply foldr_max_le
    intro x hx
    rcases List.mem_filter.mp hx with ⟨_, hle⟩
    exact Nat.le_sqrt.mpr (by simpa using hle)
  · apply le_foldr_max
    apply List.mem_filter.mpr
    constructor
    · exact List.mem_range.mpr (Nat.lt_succ_of_le (Nat.sqrt_le_self n))
    · simpa using Nat.sqrt_le n

lemma except_bind_ok {ε α β : Type} (a : α) (f : α → Except ε β) :
    (Except.ok a >>= f) = f a := rfl

lemma except_bind_error {ε α β : Type} (e : ε) (f : α → Except ε β) :
    ((Except.error e : Except ε α) >>= f) = Except.error e := rfl

lemma except_pure_eq {ε α : Type} (a : α) : (pure a : Except ε α) = Except.ok a := rfl

lemma py_isqrt_ok {num : Int} (h : 0 ≤ num) :
    py_isqrt num = .ok (Nat.sqrt num.toNat) := by
  unfold py_isqrt
  rw [if_neg (not_lt.mpr h)]

lemma py_is_perfect_square_ok {num : Int} (h : 0 ≤ num) :
    py_is_perfect_square num =
      .ok ((Nat.sqrt num.toNat : Int) * Nat.sqrt num.toNat == num) := by
  unfold py_is_perfect_square
  rw [py_isqrt_ok h]
  rfl

lemma py_round_cbrt_ok {num : Int} (h : 0 ≤ num) : ∃ c, py_round_cbrt num = .ok c := by
  unfold py_round_cbrt
  rw [if_neg (not_lt.mpr h)]
  exact ⟨_, rfl⟩

lemma py_is_perfect_cube_ok {num : Int} (h : 0 ≤ num) :
    ∃ b, py_is_perfect_cube num = .ok b := by
  obtain ⟨c, hc⟩ := py_round_cbrt_ok h
  unfold py_is_perfect_cube
  rw [hc]
  exact ⟨_, rfl⟩

lemma py_factorial_field_ok {num : Int} (h : 0 ≤ num) :
    ∃ v, py_factorial_field num = .ok v := by
  unfold py_factorial_field
  by_cases h20 : num < 20
  · rw [if_pos h20, if_neg (not_lt.mpr h)]
    exact ⟨_, rfl⟩
  · rw [if_neg h20]
    exact ⟨_, rfl⟩

lemma build_properties_ok {num : Int} (h : 0 ≤ num) :
    ∃ ps, build_properties num = .ok ps := by
  obtain ⟨cb, hcb⟩ := py_is_perfect_cube_ok h
  obtain ⟨fv, hfv⟩ := py_factorial_field_ok h
  unfold build_properties
  rw [py_is_perfect_square_ok h, except_bind_ok]
  rw [hcb, except_bind_ok, hfv, except_bind_ok]
  exact ⟨_, rfl⟩

lemma get_local_fun_fact_ok (pick : Nat) {num : Int} (h : 0 ≤ num) :
    ∃ s, get_local_fun_fact pick num = .ok s := by
  obtain ⟨cb, hcb⟩ := py_is_perfect_cube_ok h
  unfold get_local_fun_fact
  by_cases h20 : num < 20
  · rw [if_pos h20, if_neg (not_lt.mpr h)]
    simp only [py_is_perfect_square_ok h, hcb, except_bind_ok, except_pure_eq]
    exact ⟨_, rfl⟩
  · rw [if_neg h20]
    simp only [py_is_perfect_square_ok h, hcb, except_bind_ok, except_pure_eq]
    exact ⟨_, rfl⟩

lemma get_fun_fact_ok (remote : Option String) (pick : Nat) {num : Int} (h : 0 ≤ num) :
    ∃ s, get_fun_fact remote pick num = .ok s := by
  cases remote with
  | some t => exact ⟨t.trim, rfl⟩
  | none => exact get_local_fun_fact_ok pick h

lemma classify_number_ok {num : Int} (h : 0 ≤ num) :
    ∃ e p f sq cb pw ar pf, classify_number num = .ok (classifyList e p f sq cb pw ar pf) := by
  obtain ⟨cb, hcb⟩ := py_is_perfect_cube_ok h
  unfold classify_number
  rw [py_is_perfect_square_ok h, except_bind_ok, hcb, except_bind_ok]
  exact ⟨_, _, _, _, _, _, _, _, rfl⟩

lemma get_number_properties_ok (remote : Option String) (pick : Nat) {num : Int}
    (h : 0 ≤ num) : ∃ r, get_number_properties remote pick num = .ok r := by
  obtain ⟨ps, hps⟩ := build_properties_ok h
  obtain ⟨s, hs⟩ := get_fun_fact_ok remote pick h
  obtain ⟨e, p, f, sq, cb, pw, ar, pf, hc⟩ := classify_number_ok h
  unfold get_number_properties
  rw [hps, except_bind_ok, hs, except_bind_ok, hc, except_bind_ok]
  exact ⟨_, rfl⟩

lemma get_number_properties_neg (remote : Option String) (pick : Nat) {num : Int}
    (h : num < 0) : get_number_properties remote pick num = .error .valueError := by
  have hsq : py_is_perfect_square num = .error .valueError := by
    unfold py_is_perfect_square py_isqrt
    rw [if_pos h]
    rfl
  unfold get_number_properties build_properties
  rw [hsq, except_bind_error, except_bind_error]

example : get_factors (-6) = [-6, -3, 1, 2] := by decide
example : get_factors 6 = [1, 2, 3, 6] := by decide
example : get_factors 0 = [] := rfl
example : py_is_armstrong (-153) = false := by decide
example : py_is_armstrong 153 = true := by decide
example : py_bin_field (-5) = ['b', '1', '0', '1'] := by decide
example : py_is_power_of_two 8 = true := by decide
example : py_is_power_of_two (-8) = false := by decide
example : build_properties (-1) = .error .valueError := rfl
example : classify_number (-3) = .error .valueError := rfl

/-- Claim C1: the spec says `GET /number/{num}` answers 200 with a complete
`NumberProperties` for every signed integer and that the 500 branch is
unreachable. The code contradicts this (and its own docstring, which promises
"any valid integer (positive, negative, or zero)"): for every negative input
`math.isqrt` raises `ValueError` inside the properties dict and the handler
answers 500. Success holds exactly on the nonnegative integers. -/
theorem claim_C1_endpoint_status :
    (∀ remote pick, endpoint_status remote pick (-1) = 500) ∧
    (∀ remote pick (num : Int), 0 ≤ num → endpoint_status remote pick num = 200) := by
  constructor
  · intro remote pick
    unfold endpoint_status
    rw [get_number_properties_neg remote pick (by decide)]
  · intro remote pick num h
    obtain ⟨r, hr⟩ := get_number_properties_ok remote pick h
    unfold endpoint_status
    rw [hr]

/-- Witness for C1 at the concrete inputs 7 and -1. -/
theorem claim_C1_witness :
    endpoint_status (some " The fact. ") 0 7 = 200 ∧ endpoint_status none 3 (-1) = 500 :=
  ⟨claim_C1_endpoint_status.2 (some " The fact. ") 0 7 (by decide),
   claim_C1_endpoint_status.1 none 3⟩

/-- Claim C3: the spec defines the perfect-square check as total with value
false for negative inputs. In the code the check is
`math.isqrt(num) ** 2 == num`, which raises `ValueError` for `num < 0`
instead of returning false; for `num ≥ 0` it is exactly squareness. -/
theorem claim_C3_perfect_square :
    py_is_perfect_square (-4) = .error .valueError ∧
    ∀ num : Int, 0 ≤ num →
      (py_is_perfect_square num = .ok true ↔ ∃ k : Nat, (k : Int) * k = num) := by
  constructor
  · rfl
  · intro num h
    rw [py_is_perfect_square_ok h]
    simp only [Except.ok.injEq, beq_iff_eq]
    constructor
    · intro he
      exact ⟨Nat.sqrt num.toNat, he⟩
    · rintro ⟨k, hk⟩
      have hk' : ((k * k : Nat) : Int) = num := by push_cast; exact hk
      have hnum : num.toNat = k * k := by rw [← hk']; exact Int.toNat_natCast _
      have hs : Nat.sqrt num.toNat * Nat.sqrt num.toNat = num.toNat :=
        (Nat.exists_mul_self num.toNat).mp ⟨k, hnum.symm⟩
      have : ((Nat.sqrt num.toNat * Nat.sqrt num.toNat : Nat) : Int) = num := by
        rw [hs]; exact Int.toNat_of_nonneg h
      push_cast at this
      exact this

/-- Witness for C3 at the concrete inputs -4 and 9. -/
theorem claim_C3_witness :
    py_is_perfect_square (-4) = .error .valueError ∧ py_is_perfect_square 9 = .ok true :=
  ⟨claim_C3_perfect_square.1,
   (claim_C3_perfect_square.2 9 (by decide)).mpr ⟨3, by decide⟩⟩

/-- Claim C4: the spec says fact resolution always returns a string and that
neither the remote path nor the local fallback raises outward. The code
contradicts this: with the remote service failing and a negative input, the
local generator evaluates `math.factorial(num)` (line 78), which raises
`ValueError` past the `except RequestException` clause. For nonnegative
inputs the operation does always return a string. -/
theorem claim_C4_fun_fact :
    (∀ pick (num : Int), get_fun_fact none pick num = get_local_fun_fact pick num) ∧
    get_fun_fact none 0 (-1) = .error .valueError ∧
    ∀ remote pick (num : Int), 0 ≤ num → ∃ s, get_fun_fact remote pick num = .ok s := by
  refine ⟨fun pick num => rfl, rfl, ?_⟩
  intro remote pick num h
  exact get_fun_fact_ok remote pick h

/-- Witness for C4 at the concrete input 5 with the remote service down. -/
theorem claim_C4_witness : ∃ s, get_fun_fact none 2 5 = .ok s :=
  claim_C4_fun_fact.2.2 none 2 5 (by decide)

/-- Claim C7: for `0 ≤ n < 20` the factorial property is the exact factorial;
for `n ≥ 20` it is the sentinel string `"Too large to calculate"` instead of
a computed value. This is exactly what line 170 does. -/
theorem claim_C7_factorial :
    ∀ num : Int,
      (0 ≤ num → num < 20 → py_factorial_field num = .ok (.i (num.toNat.factorial : Int))) ∧
      (20 ≤ num → py_factorial_field num = .ok (.s "Too large to calculate")) := by
  intro num
  constructor
  · intro h0 h20
    unfold py_factorial_field
    rw [if_pos h20, if_neg (not_lt.mpr h0)]
  · intro h20
    unfold py_factorial_field
    rw [if_neg (not_lt.mpr h20)]

/-- Witness for C7 at the concrete inputs 5 and 25. -/
theorem claim_C7_witness :
    py_factorial_field 5 = .ok (.i 120) ∧
    py_factorial_field 25 = .ok (.s "Too large to calculate") := by
  constructor
  · rw [(claim_C7_factorial 5).1 (by decide) (by decide)]
    rfl
  · exact (claim_C7_factorial 25).2 (by decide)

lemma get_number_properties_emoji {remote : Option String} {pick : Nat} {num : Int}
    {r : NumberProperties} (h : get_number_properties remote pick num = .ok r) :
    r.emoji = EMOJIS.getD (num.natAbs % 10) "" := by
  unfold get_number_properties at h
  cases hb : build_properties num with
  | error e =>
    simp only [hb, except_bind_error] at h
    exact Except.noConfusion h
  | ok ps =>
    simp only [hb, except_bind_ok] at h
    cases hf : get_fun_fact remote pick num with
    | error e =>
      simp only [hf, except_bind_error] at h
      exact Except.noConfusion h
    | ok s =>
      simp only [hf, except_bind_ok] at h
      cases hc : classify_number num with
      | error e =>
        simp only [hc, except_bind_error] at h
        exact Except.noConfusion h
      | ok l =>
        simp only [hc, except_bind_ok, except_pure_eq, Except.ok.injEq] at h
        rw [← h]
        rfl

/-- Claim C10: in every successful response the emoji is
`EMOJIS[abs(num) % len(EMOJIS)]` (line 177): the element at index `|n| mod 10`
of the fixed ten-element list, hence always one of those ten strings, and
identical across any two successful responses for the same `n`. -/
theorem claim_C10_emoji :
    ∀ remote pick (num : Int) r, get_number_properties remote pick num = .ok r →
      r.emoji = EMOJIS.getD (num.natAbs % 10) "" ∧ r.emoji ∈ EMOJIS ∧
      ∀ remote2 pick2 r2, get_number_properties remote2 pick2 num = .ok r2 →
        r2.emoji = r.emoji := by
  intro remote pick num r h
  have he := get_number_properties_emoji h
  refine ⟨he, ?_, ?_⟩
  · rw [he]
    have hidx : num.natAbs % 10 < EMOJIS.length := by
      have : num.natAbs % 10 < 10 := Nat.mod_lt _ (by decide)
      simpa [EMOJIS] using this
    rw [List.getD_eq_getElem EMOJIS "" hidx]
    exact List.getElem_mem hidx
  · intro remote2 pick2 r2 h2
    rw [get_number_properties_emoji h2, he]

/-- Witness for C10 at the concrete input 3. -/
theorem claim_C10_witness :
    ∃ r, get_number_properties (some " A fact. ") 0 3 = .ok r ∧ r.emoji = "🌟" := by
  obtain ⟨r, hr⟩ := @get_number_properties_ok (some " A fact. ") 0 3 (by decide)
  refine ⟨r, hr, ?_⟩
  rw [(claim_C10_emoji (some " A fact. ") 0 3 r hr).1]
  rfl

lemma classifyList_sublist :
    ∀ e p f sq cb pw ar pf,
      (classifyList e p f sq cb pw ar pf).Sublist CLASSIFICATION_TAGS := by decide

lemma classifyList_counts :
    ∀ e p f sq cb pw ar pf,
      ((classifyList e p f sq cb pw ar pf).count "even" +
        (classifyList e p f sq cb pw ar pf).count "odd" = 1) ∧
      ((classifyList e p f sq cb pw ar pf).count "prime" +
        (classifyList e p f sq cb pw ar pf).count "composite" = 1) := by decide

/-- Claim C5: the spec states the tag-list invariants for every integer. For
`num ≥ 0` they all hold: exactly one of even/odd, exactly one of
prime/composite, entries drawn without duplicates from the fixed vocabulary
in evaluation order (stated as: the list is a sublist of the ordered
vocabulary). But for negative `num` the code has no tag list at all:
`classify_number` raises `ValueError` at `math.isqrt(num)` (line 115), so
the claim's universal quantification over all integers fails. -/
theorem claim_C5_classification :
    classify_number (-3) = .error .valueError ∧
    ∀ num : Int, 0 ≤ num → ∃ tags, classify_number num = .ok tags ∧
      tags.Sublist CLASSIFICATION_TAGS ∧ tags.Nodup ∧
      tags.count "even" + tags.count "odd" = 1 ∧
      tags.count "prime" + tags.count "composite" = 1 := by
  constructor
  · rfl
  · intro num h
    obtain ⟨e, p, f, sq, cb, pw, ar, pf, hc⟩ := classify_number_ok h
    refine ⟨_, hc, classifyList_sublist e p f sq cb pw ar pf, ?_, ?_, ?_⟩
    · exact (classifyList_sublist e p f sq cb pw ar pf).nodup (by decide)
    · exact (classifyList_counts e p f sq cb pw ar pf).1
    · exact (classifyList_counts e p f sq cb pw ar pf).2

/-- Witness for C5 at the concrete input 6. -/
theorem claim_C5_witness :
    ∃ tags, classify_number 6 = .ok tags ∧
      tags.Sublist CLASSIFICATION_TAGS ∧ tags.Nodup ∧
      tags.count "even" + tags.count "odd" = 1 ∧
      tags.count "prime" + tags.count "composite" = 1 :=
  claim_C5_classification.2 6 (by decide)

/-- Claim C6 counterexample: the claim says the Armstrong check is true iff
`|n|` equals its digit-power sum, so it would classify -153 as Armstrong;
the code compares `num` itself (not `abs(num)`) with the sum, so -153 is not
Armstrong even though `|−153| = 153 = 1³+5³+3³`. -/
theorem claim_C6_counterexample :
    py_is_armstrong (-153) = false ∧ armstrong_spec (-153) = true := by decide

/-- Claim C6 amended: the check `num == sum(int(d) ** len(str(abs(num))) for
d in str(abs(num)))` is true iff `num` is nonnegative and `|num|` equals the
digit-power sum of `|num|`; in particular it is false for every negative
input rather than true on negative Armstrong magnitudes. -/
theorem claim_C6_armstrong :
    ∀ num : Int,
      py_is_armstrong num = true ↔ 0 ≤ num ∧ (num.natAbs : Int) = (armstrongSum num : Int) := by
  intro num
  unfold py_is_armstrong
  rw [beq_iff_eq]
  omega

/-- Claim C9 counterexample: the claim says the binary/hex properties are the
unsigned-magnitude digits of `|n|` even for negative `n`; but
`bin(-5)[2:] = "b101"` and `hex(-5)[2:] = "x5"` — the slice removes `-0` and
leaves a stray `b`/`x` instead of producing the magnitude digits. -/
theorem claim_C9_counterexample :
    py_bin_field (-5) = ['b', '1', '0', '1'] ∧
    py_bin_field (-5) ≠ binary_digits_spec (-5) ∧
    py_hex_field (-5) = ['x', '5'] ∧
    py_hex_field (-5) ≠ hex_digits_spec (-5) := by decide

/-- Claim C9 amended: for every `num ≥ 0` the `binary` and `hexadecimal`
properties are exactly the unsigned binary/hexadecimal digits of `|num|`
with no sign and no prefix; for negative `num` the `[2:]` slice instead
leaves a remnant of the `-0b`/`-0x` prefix. -/
theorem claim_C9_binary_hex :
    ∀ num : Int, 0 ≤ num →
      py_bin_field num = binary_digits_spec num ∧
      py_hex_field num = hex_digits_spec num := by
  intro num h
  constructor
  · unfold py_bin_field py_bin_chars binary_digits_spec
    rw [if_neg (not_lt.mpr h)]
    rfl
  · unfold py_hex_field py_hex_chars hex_digits_spec
    rw [if_neg (not_lt.mpr h)]
    rfl

/-- Witness for C9 at the concrete input 5. -/
theorem claim_C9_witness :
    py_bin_field 5 = binary_digits_spec 5 ∧ py_hex_field 5 = hex_digits_spec 5 :=
  claim_C9_binary_hex 5 (by decide)

lemma int_fdiv_natCast (m i : Nat) : (m : Int).fdiv (i : Int) = ((m / i : Nat) : Int) := by
  cases m with
  | zero =>
    rw [Nat.zero_div]
    rfl
  | succ k => rfl

lemma get_factors_sorted (num : Int) : (get_factors num).Sorted (· < ·) := by
  unfold get_factors
  exact List.Sorted.lt_of_le (List.sorted_insertionSort _ _)
    ((List.perm_insertionSort _ _).nodup_iff.mpr (List.nodup_dedup _))

lemma get_factors_mem_pairs {num x : Int} :
    x ∈ get_factors num ↔ x ∈ factor_pairs num := by
  unfold get_factors
  rw [(List.perm_insertionSort _ _).mem_iff, List.mem_dedup]

lemma factor_pairs_mem_nat {m : Nat} {x : Int} :
    x ∈ factor_pairs (m : Int) ↔ (0 < x ∧ x ∣ (m : Int) ∧ m ≠ 0) := by
  unfold factor_pairs
  rw [Int.natAbs_ofNat, pySqrtFloor_eq, List.mem_flatMap]
  constructor
  · rintro ⟨i, hi, hx⟩
    rw [List.mem_range'_1] at hi
    obtain ⟨hi1, hi2⟩ := hi
    by_cases hc : ((m : Int) % (i : Int) == 0) = true
    · rw [if_pos hc] at hx
      have hdvd : (i : Int) ∣ (m : Int) := Int.dvd_of_emod_eq_zero (beq_iff_eq.mp hc)
      have hdvdN : i ∣ m := Int.natCast_dvd_natCast.mp hdvd
      have hm0 : m ≠ 0 := by
        intro h0
        rw [h0, Nat.sqrt_zero] at hi2
        omega
      have hmpos : 0 < m := Nat.pos_of_ne_zero hm0
      rcases List.mem_cons.mp hx with rfl | hx
      · exact ⟨by exact_mod_cast hi1, hdvd, hm0⟩
      · rcases List.mem_cons.mp hx with rfl | hx
        · rw [int_fdiv_natCast]
          have hqpos : 0 < m / i := Nat.div_pos (Nat.le_of_dvd hmpos hdvdN) hi1
          have hqdvd : (m / i) ∣ m := ⟨i, (Nat.div_mul_cancel hdvdN).symm⟩
          exact ⟨by exact_mod_cast hqpos, Int.natCast_dvd_natCast.mpr hqdvd, hm0⟩
        · exact absurd hx (List.not_mem_nil x)
    · rw [if_neg hc] at hx
      exact absurd hx (List.not_mem_nil x)
  · rintro ⟨hx0, hxdvd, hm0⟩
    have hmpos : 0 < m := Nat.pos_of_ne_zero hm0
    have hxd : ((x.toNat : Nat) : Int) = x := Int.toNat_of_nonneg hx0.le
    have hdvdN : x.toNat ∣ m := by
      rw [← Int.natCast_dvd_natCast, hxd]
      exact hxdvd
    have hdpos : 0 < x.toNat := by omega
    have hdle : x.toNat ≤ m := Nat.le_of_dvd hmpos hdvdN
    by_cases hle : x.toNat ≤ Nat.sqrt m
    · refine ⟨x.toNat, ?_, ?_⟩
      · rw [List.mem_range'_1]
        omega
      · have hcond : ((m : Int) % (x.toNat : Int) == 0) = true :=
          beq_iff_eq.mpr (Int.emod_eq_zero_of_dvd (by rw [hxd]; exact hxdvd))
        rw [if_pos hcond]
        exact List.mem_cons.mpr (Or.inl hxd.symm)
    · have hgt : Nat.sqrt m < x.toNat := not_le.mp hle
      have hile : m / x.toNat ≤ Nat.sqrt m := by
        by_contra hcon
        push_neg at hcon
        have hmul : (Nat.sqrt m + 1) * (Nat.sqrt m + 1) ≤ (m / x.toNat) * x.toNat :=
          Nat.mul_le_mul hcon hgt
        rw [Nat.div_mul_cancel hdvdN] at hmul
        exact absurd hmul
          (not_le.mpr (by simpa [Nat.succ_eq_add_one] using Nat.lt_succ_sqrt m))
      have hipos : 0 < m / x.toNat := Nat.div_pos hdle hdpos
      have hidvd : (m / x.toNat) ∣ m := ⟨x.toNat, (Nat.div_mul_cancel hdvdN).symm⟩
      refine ⟨m / x.toNat, ?_, ?_⟩
      · rw [List.mem_range'_1]
        omega
      · have hcond : ((m : Int) % ((m / x.toNat : Nat) : Int) == 0) = true :=
          beq_iff_eq.mpr (Int.emod_eq_zero_of_dvd (Int.natCast_dvd_natCast.mpr hidvd))
        rw [if_pos hcond, int_fdiv_natCast, Nat.div_div_self hdvdN hm0, hxd]
        exact List.mem_cons.mpr (Or.inr (List.mem_cons.mpr (Or.inl rfl)))

/-- Claim C2 counterexample: the claim says `factors(n)` is exactly the
positive divisors of `|n|` for every integer. At `num = -6` the code floor
divides the signed `num`, so the result contains -6 and misses the positive
divisor 3 of `|-6|`. -/
theorem claim_C2_counterexample :
    (-6 : Int) ∈ get_factors (-6) ∧ (3 : Int) ∉ get_factors (-6) ∧
    (-6 : Int).natAbs % 3 = 0 := by decide

/-- Claim C2 amended: for every `num ≥ 0`, `get_factors num` is strictly
ascending (hence sorted with no duplicates) and contains exactly the positive
divisors of `num` when `num ≠ 0`; and `factors(0) = []`. For negative `num`
the collected cofactors `num // i` are negative, so the stated set equality
with the positive divisors of `|num|` fails. -/
theorem claim_C2_factors :
    get_factors 0 = [] ∧
    ∀ num : Int, 0 ≤ num →
      (get_factors num).Sorted (· < ·) ∧
      ∀ x : Int, x ∈ get_factors num ↔ (0 < x ∧ x ∣ num ∧ num ≠ 0) := by
  refine ⟨rfl, ?_⟩
  intro num h
  refine ⟨get_factors_sorted num, ?_⟩
  intro x
  have hm : ((num.toNat : Nat) : Int) = num := Int.toNat_of_nonneg h
  rw [← hm, get_factors_mem_pairs, factor_pairs_mem_nat]
  constructor
  · rintro ⟨h1, h2, h3⟩
    exact ⟨h1, h2, by exact_mod_cast h3⟩
  · rintro ⟨h1, h2, h3⟩
    exact ⟨h1, h2, by exact_mod_cast h3⟩

/-- Witness for C2 at the concrete input 6. -/
theorem claim_C2_witness :
    (get_factors 6).Sorted (· < ·) ∧
    ((2 : Int) ∈ get_factors 6 ↔ (0 < (2 : Int) ∧ (2 : Int) ∣ 6 ∧ (6 : Int) ≠ 0)) :=
  ⟨(claim_C2_factors.2 6 (by decide)).1, (claim_C2_factors.2 6 (by decide)).2 2⟩

lemma nat_odd_land_pred {n : Nat} (h : n % 2 = 1) : n &&& (n - 1) = n - 1 := by
  apply Nat.eq_of_testBit_eq
  intro i
  rw [Nat.testBit_land]
  cases i with
  | zero =>
    simp only [Nat.testBit_zero]
    have h1 : (n - 1) % 2 = 0 := by omega
    simp [h, h1]
  | succ j =>
    simp only [Nat.testBit_add_one]
    have h2 : (n - 1) / 2 = n / 2 := by omega
    rw [h2, Bool.and_self]

lemma nat_even_land_pred {n : Nat} (h : n % 2 = 0) :
    n &&& (n - 1) = 0 ↔ (n / 2) &&& (n / 2 - 1) = 0 := by
  have h2 : (n - 1) / 2 = n / 2 - 1 := by omega
  constructor
  · intro hz
    apply Nat.eq_of_testBit_eq
    intro i
    rw [Nat.zero_testBit, Nat.testBit_land]
    have hbit := congrArg (fun x => x.testBit (i + 1)) hz
    simp only [Nat.testBit_land] at hbit
    simp only [Nat.testBit_add_one, Nat.zero_div, Nat.zero_testBit] at hbit
    rw [h2] at hbit
    exact hbit
  · intro hz
    apply Nat.eq_of_testBit_eq
    intro i
    rw [Nat.testBit_land, Nat.zero_testBit]
    cases i with
    | zero =>
      simp [Nat.testBit_zero, h]
    | succ j =>
      simp only [Nat.testBit_add_one]
      rw [h2]
      have hbit := congrArg (fun x => x.testBit j) hz
      simp only [Nat.zero_testBit, Nat.testBit_land] at hbit
      exact hbit

lemma nat_land_pred_pow2 : ∀ n : Nat, n ≠ 0 → n &&& (n - 1) = 0 → ∃ k, n = 2 ^ k := by
  intro n
  induction n using Nat.strong_induction_on with
  | _ n ih =>
    intro h0 hz
    rcases Nat.even_or_odd n with he | ho
    · have hm2 : n % 2 = 0 := Nat.even_iff.mp he
      have hm0 : n / 2 ≠ 0 := by omega
      have hlt : n / 2 < n := by omega
      obtain ⟨k, hk⟩ := ih (n / 2) hlt hm0 ((nat_even_land_pred hm2).mp hz)
      refine ⟨k + 1, ?_⟩
      rw [pow_succ]
      omega
    · have hm1 : n % 2 = 1 := Nat.odd_iff.mp ho
      rw [nat_odd_land_pred hm1] at hz
      have hn1 : n = 1 := by omega
      exact ⟨0, by rw [hn1, pow_zero]⟩

lemma pow2_land_pred (k : Nat) : (2 ^ k) &&& (2 ^ k - 1) = 0 := by
  apply Nat.eq_of_testBit_eq
  intro i
  rw [Nat.testBit_land, Nat.zero_testBit, Nat.testBit_two_pow_sub_one]
  by_cases hik : k = i
  · subst hik
    simp [Nat.testBit_two_pow_self]
  · rw [Nat.testBit_two_pow_of_ne hik]
    simp

/-- Claim C8: the power-of-two check `(num & (num - 1)) == 0 and num != 0`
is true iff `num` is a (positive) power of two, even without an explicit
`num > 0` guard: Python's `&` acts on infinite two's complement, so for
negative `num` both operands are negative and the AND is negative, never 0.
In particular -8 is not tagged while 8 is. -/
theorem claim_C8_power_of_two :
    ∀ num : Int, py_is_power_of_two num = true ↔ ∃ k : Nat, num = 2 ^ k := by
  intro num
  unfold py_is_power_of_two
  rw [Bool.and_eq_true, beq_iff_eq, bne_iff_ne]
  cases num with
  | ofNat m =>
    cases Nat.eq_zero_or_pos m with
    | inl h0 =>
      subst h0
      constructor
      · rintro ⟨_, hne⟩
        exact absurd rfl hne
      · rintro ⟨k, hk⟩
        exfalso
        have hp : (0 : Int) < 2 ^ k := pow_pos (by norm_num) k
        rw [← hk] at hp
        exact absurd hp (by decide)
    | inr hpos =>
      obtain ⟨j, rfl⟩ : ∃ j, m = j + 1 := ⟨m - 1, by omega⟩
      have hsub : (Int.ofNat (j + 1)) - 1 = Int.ofNat j := by
        rw [Int.ofNat_eq_natCast, Int.ofNat_eq_natCast]
        push_cast
        ring
      rw [hsub]
      have hland : py_land (Int.ofNat (j + 1)) (Int.ofNat j) = Int.ofNat ((j + 1) &&& j) := rfl
      rw [hland]
      constructor
      · rintro ⟨hz, _⟩
        obtain ⟨k, hk⟩ := nat_land_pred_pow2 (j + 1) (Nat.succ_ne_zero j)
          (Int.ofNat_eq_zero.mp hz)
        refine ⟨k, ?_⟩
        rw [Int.ofNat_eq_natCast]
        exact_mod_cast hk
      · rintro ⟨k, hk⟩
        have hknat : j + 1 = 2 ^ k := by
          rw [Int.ofNat_eq_natCast] at hk
          exact_mod_cast hk
        constructor
        · have hz : (j + 1) &&& j = 0 := by
            have h1 := pow2_land_pred k
            rw [← hknat] at h1
            exact h1
          rw [hz]
          rfl
        · intro hcontra
          have := Int.ofNat_eq_zero.mp hcontra
          omega
  | negSucc m =>
    have hsub : (Int.negSucc m) - 1 = Int.negSucc (m + 1) := by
      rw [Int.negSucc_eq, Int.negSucc_eq]
      push_cast
      ring
    rw [hsub]
    have hland : py_land (Int.negSucc m) (Int.negSucc (m + 1)) = Int.negSucc (m ||| (m + 1)) := rfl
    rw [hland]
    constructor
    · rintro ⟨hz, _⟩
      exact absurd hz (fun hc => Int.noConfusion hc)
    · rintro ⟨k, hk⟩
      exfalso
      have hp : (0 : Int) < 2 ^ k := pow_pos (by norm_num) k
      rw [← hk] at hp
      exact absurd hp (not_lt.mpr (le_of_lt (Int.negSucc_lt_zero m)))
